import Mathlib

/-!
Verification of the Grok configuration class from src/Python/hgsrun/setup.py.

Embedding conventions:
* Python 2 byte strings are modelled as lists of byte values (`PyStr := List Nat`);
  `pb` turns an ASCII Lean string literal into its byte list.
* Exceptions (IOError, ValueError, IndexError, NotImplementedError) are modelled
  by `Option`: `none` means the operation raises.
* The mutable `Grok` object is modelled as an explicit state record; methods become
  functions from the old state (plus arguments) to `Option` of the new state.
* File-system interaction is modelled by passing the file content directly:
  a missing file is `Option.none`, a present regular file is `some content`.
-/

namespace HGSGrok

/-- Python 2 byte strings, as lists of byte values. -/
abbrev PyStr := List Nat

/-- Byte list of an ASCII Lean string literal. -/
def pb (s : String) : PyStr := s.toList.map Char.toNat

/-- Python `str.strip` whitespace set: space, tab, newline, carriage return,
vertical tab, form feed (byte values 32, 9, 10, 13, 11, 12). -/
def isPySpace (b : Nat) : Bool :=
  decide (b = 32 ∨ b = 9 ∨ b = 10 ∨ b = 13 ∨ b = 11 ∨ b = 12)

/-- Python 2 `str.lower` on a single byte (C locale): maps A-Z to a-z. -/
def pyToLower (b : Nat) : Nat := if 65 ≤ b ∧ b ≤ 90 then b + 32 else b

/-- Python 2 `str.lower`. -/
def pyLower (s : PyStr) : PyStr := s.map pyToLower

/-- Left part of Python `str.strip`: drop leading whitespace. -/
def pyLstrip (s : PyStr) : PyStr := s.dropWhile isPySpace

/-- Right part of Python `str.strip`: drop trailing whitespace. -/
def pyRstrip : PyStr → PyStr
  | [] => []
  | b :: t => if pyRstrip t = [] ∧ isPySpace b = true then [] else b :: pyRstrip t

/-- Python `str.strip`: drop leading and trailing whitespace. -/
def pyStrip (s : PyStr) : PyStr := pyLstrip (pyRstrip s)

/-- The per-line normalisation `line.strip().lower()` applied by `Grok.read`. -/
def normLine (s : PyStr) : PyStr := pyLower (pyStrip s)

/-- Python `file.readlines`, accumulator form: splits after every newline byte (10),
keeping the newline at the end of each chunk; a final chunk without newline is kept,
and an empty file yields no lines. `acc` holds the bytes of the current chunk, reversed. -/
def pyReadlinesAux : PyStr → PyStr → List PyStr
  | [], acc => if acc = [] then [] else [acc.reverse]
  | b :: t, acc =>
    if b = 10 then (acc.reverse ++ [10]) :: pyReadlinesAux t [] else pyReadlinesAux t (b :: acc)

/-- Python `file.readlines` on the whole file content. -/
def pyReadlines (s : PyStr) : List PyStr := pyReadlinesAux s []

/-- Join lines with a newline byte between consecutive lines. -/
def joinNl : List PyStr → PyStr
  | [] => []
  | [x] => x
  | x :: y :: r => x ++ 10 :: joinNl (y :: r)

/-- `Grok.write` serialisation of the line list (setup.py line 70):
lines joined by newlines, plus one trailing newline. -/
def writeDoc (ls : List PyStr) : PyStr := joinNl ls ++ [10]

/-- A line as held in `Grok._lines` after `read`: whitespace-stripped, lower-cased,
and free of newline bytes. -/
def isNormLine (l : PyStr) : Prop := pyStrip l = l ∧ pyLower l = l ∧ (10 : Nat) ∉ l

/-- Python `list.index(key)` without a start offset: index of the first element equal
to `key`, or `none` (ValueError) when absent. -/
def idxSearch : List PyStr → PyStr → Option Nat
  | [], _ => none
  | l :: t, k => if l = k then some 0 else (idxSearch t k).map (· + 1)

/-- Python `list.index(key, start)`: first index at or after `start` whose element
equals `key`, or `none` (ValueError). -/
def pyIndexFrom (ls : List PyStr) (k : PyStr) (start : Nat) : Option Nat :=
  (idxSearch (ls.drop start) k).map (start + ·)

/-- The line `start = self._lines.index(after, start) if after else start` shared by
`setParam`, `getParam` and `replaceParam`: resolves the `after` anchor to a search
offset, failing (ValueError) when `after` is given but absent from `start` on. -/
def afterStart (lines : List PyStr) (after : Option PyStr) (start : Nat) : Option Nat :=
  match after with
  | none => some start
  | some a => pyIndexFrom lines a start

/-- Body of `Grok.setParam` (setup.py line 80): the parameter name is lower-cased and
searched for from the beginning of the document (the computed `start` offset is NOT
passed to this search in the source, unlike `getParam`); the line after the first hit
is overwritten. A write past the end is an IndexError, hence `none`. -/
def setParamCore (lines : List PyStr) (param v : PyStr) : Option (List PyStr) :=
  (idxSearch lines (pyLower param)).bind fun i =>
    if i + 1 < lines.length then some (lines.set (i + 1) v) else none

/-- `Grok.setParam` (setup.py lines 73-80). `v` is the already-formatted value
(`formatter.format(value)` or `str(value)`). When `after` is given, the source
computes `start = self._lines.index(after, start)` — failing (ValueError) when `after`
is absent — but then ignores the result in the final search (source line 80). -/
def setParamDoc (lines : List PyStr) (param v : PyStr) (after : Option PyStr)
    (start : Nat) : Option (List PyStr) :=
  (afterStart lines after start).bind fun _ => setParamCore lines param v

/-- `Grok.getParam` (setup.py lines 82-90) without the final dtype conversion:
resolves the `after` anchor to a start offset, finds the lower-cased parameter name
from that offset on, and returns the line following it (IndexError past the end). -/
def getParamDoc (lines : List PyStr) (param : PyStr) (after : Option PyStr)
    (start : Nat) : Option PyStr :=
  (afterStart lines after start).bind fun s =>
    (pyIndexFrom lines (pyLower param) s).bind fun i => lines.get? (i + 1)

/-- `Grok.replaceParam` (setup.py lines 92-100): `old` and `new` already formatted;
the line equal to `old.lower()` at or after the resolved offset is overwritten with
`new`. -/
def replaceParamDoc (lines : List PyStr) (old new : PyStr) (after : Option PyStr)
    (start : Nat) : Option (List PyStr) :=
  (afterStart lines after start).bind fun s =>
    (pyIndexFrom lines (pyLower old) s).bind fun i => some (lines.set i new)

/-- Little-endian decimal digits of `n` (fuel-based so that it reduces in the kernel). -/
def natDigitsAux : Nat → Nat → List Nat
  | 0, _ => []
  | fuel + 1, n => if n = 0 then [] else n % 10 :: natDigitsAux fuel (n / 10)

/-- Little-endian decimal digits of `n`; empty for 0. -/
def natDigits (n : Nat) : List Nat := natDigitsAux n n

/-- Render a 4-digit mantissa `m` (scaled value times 1000) as `d.ddd`.
Byte 46 is the decimal point, 48 the digit zero. -/
def mantissaChars (m : Nat) : PyStr :=
  match (natDigits m).reverse.map (fun d => 48 + d) with
  | [] => [48, 46, 48, 48, 48]
  | c :: cs => c :: 46 :: cs

/-- Render a nonnegative decimal exponent, zero-padded to at least two digits. -/
def expChars (e : Nat) : PyStr :=
  if e = 0 then [48, 48]
  else if e < 10 then 48 :: (natDigits e).reverse.map (fun d => 48 + d)
  else (natDigits e).reverse.map (fun d => 48 + d)

/-- Python format spec `.3e` applied to a nonnegative integer number of seconds
(as in `setRuntime`): scientific notation with three digits after the point,
round-half-even, exponent sign `+` (byte 43) and at least two exponent digits.
Exact for integers below 2^53, where float conversion is lossless. -/
def sci3 (n : Nat) : PyStr :=
  if n = 0 then [48, 46, 48, 48, 48, 101, 43, 48, 48]
  else
    let e := (natDigits n).length - 1
    let me : Nat × Nat :=
      if e ≤ 3 then (n * 10 ^ (3 - e), e)
      else
        let p := 10 ^ (e - 3)
        let q := n / p
        let r := n % p
        let q' := if p < 2 * r ∨ (2 * r = p ∧ q % 2 = 1) then q + 1 else q
        if q' = 10000 then (1000, e + 1) else (q', e)
    mantissaChars me.1 ++ [101, 43] ++ expChars me.2

/-- Python slice `s[-k:]`: the last `k` bytes (the whole string when shorter). -/
def lastN (k : Nat) (l : PyStr) : PyStr := l.drop (l.length - k)

/-- State of a `Grok` object. `runtime = 0` stands for the falsy values
(`None` or `0`) of `self.runtime`; `lines = []` stands for the falsy values
(`None` or the empty list) of `self._lines`. `mode` and `interval` are the instance
attributes created by `setInputMode` (absent before the first call, hence `Option`);
`input_mode` and `input_interval` are the constructor-assigned fields.
Path bookkeeping (`rundir`, `project`, `_sourcefile`, `_targetfile`) is omitted:
no claim depends on it. -/
structure Grok where
  runtime : Nat
  input_mode : Option PyStr
  input_interval : Option PyStr
  mode : Option PyStr
  interval : Option PyStr
  lines : List PyStr
deriving DecidableEq

/-- `Grok.setRuntime` (setup.py lines 108-112): stores the new runtime and, when a
document is loaded (`self._lines` truthy), writes the `.3e`-formatted value into the
line after the first `output times` keyword. -/
def setRuntimeModel (g : Grok) (t : Nat) : Option Grok :=
  if g.lines = [] then some { g with runtime := t }
  else
    (setParamDoc g.lines (pb ("output times")) (sci3 t) none 0).bind fun ls =>
      some { g with runtime := t, lines := ls }

/-- `Grok.read` (setup.py lines 47-59). The file argument is the content of the
resolved path, or `none` when the path is not a regular file (IOError). Lines are
stripped and lower-cased; afterwards, when `self.runtime` is truthy, `setRuntime`
is re-applied to the freshly loaded document. -/
def readModel (g : Grok) (file : Option PyStr) : Option Grok :=
  file.bind fun content =>
    if g.runtime ≠ 0 then
      setRuntimeModel { g with lines := (pyReadlines content).map normLine } g.runtime
    else some { g with lines := (pyReadlines content).map normLine }

/-- Mode classification of `Grok.setInputMode` (setup.py lines 116-120) on the
already lower-cased string: steady synonyms or a `-mean` suffix first, then `clim`/
`peri` 4-byte prefixes, then transient synonyms; anything else is stored unchanged. -/
def classifyModeL (ml : PyStr) : PyStr :=
  if ml = pb ("mean") ∨ ml = pb ("steady") ∨ ml = pb ("steady-state") ∨
      lastN 5 ml = pb ("-mean") then pb ("steady-state")
  else if ml.take 4 = pb ("clim") ∨ ml.take 4 = pb ("peri") ∨
      ml.take 4 = pb ("climatology") ∨ ml.take 4 = pb ("periodic") then pb ("periodic")
  else if ml = pb ("time-series") ∨ ml = pb ("timeseries") ∨ ml = pb ("trans") ∨
      ml = pb ("transient") then pb ("transient")
  else ml

/-- `mode.lower()` followed by the classification above. -/
def classifyMode (m : PyStr) : PyStr := classifyModeL (pyLower m)

/-- Interval classification of `Grok.setInputMode` (setup.py lines 121-124):
`interval[:5] == month` gives monthly, `interval[:3] == day` gives daily, anything
else raises NotImplementedError (`none`). -/
def classifyInterval (i : PyStr) : Option PyStr :=
  if (pyLower i).take 5 = pb ("month") then some (pb ("monthly"))
  else if (pyLower i).take 3 = pb ("day") then some (pb ("daily"))
  else none

/-- `Grok.setInputMode` (setup.py lines 114-125): stores the classified mode and
interval into the `mode` and `interval` attributes; an unrecognised interval raises.
(When the interval raises, the source has already assigned `self.mode`; the failure
branch of this model covers the raise itself.) -/
def setInputModeModel (g : Grok) (m i : PyStr) : Option Grok :=
  (classifyInterval i).bind fun iv =>
    some { g with mode := some (classifyMode m), interval := some iv }

/-- Document mutation performed by `Grok.generateInputLists` (setup.py lines 140-143)
for a list of `(varname, vartype)` pairs: for each pair, `setParam` writes
`include varname.inc` as the value of `time raster table`, anchored `after` the
vartype line. The external `generateInputFilelist` call only touches the file
system, not the document, and is out of scope. Python iterates a dict here, whose
order is implementation-defined; the model takes the pairs as an explicit list. -/
def genInputAux : List PyStr → List (PyStr × PyStr) → Option (List PyStr)
  | lines, [] => some lines
  | lines, (varname, vartype) :: rest =>
    (setParamDoc lines (pb ("time raster table"))
        (pb ("include ") ++ varname ++ pb (".inc")) (some vartype) 0).bind fun ls =>
      genInputAux ls rest

/-- `Grok.generateInputLists` restricted to its document mutation. -/
def generateInputListsModel (g : Grok) (input_vars : List (PyStr × PyStr)) : Option Grok :=
  (genInputAux g.lines input_vars).bind fun ls => some { g with lines := ls }

/-- The leading chunk of a byte string up to and including the first newline. -/
def firstLineChunk : PyStr → PyStr
  | [] => []
  | b :: t => if b = 10 then [10] else b :: firstLineChunk t

/-- One `readline()` from byte position `pos` of a file with content `content`:
the bytes up to and including the next newline, or up to the end; empty when `pos`
is at or past the end. -/
def readlineFrom (content : PyStr) (pos : Nat) : PyStr :=
  firstLineChunk (content.drop pos)

/-- `Grok.runGrok` (setup.py lines 151-164) after the external process has run,
given the final content of the log file. The source executes `lf.seek(2,2)` —
offset 2 from the end of the file, i.e. byte position `length + 2` — then compares
the line read there against the sentinel; it returns 0 on a match and 1 otherwise.
(The comment in the source claims the seek reaches the third line from the end.) -/
def runGrokModel (logContent : PyStr) : Nat :=
  let line := readlineFrom logContent (logContent.length + 2)
  if pyStrip line = pb ("---- Normal exit ----") then 0 else 1

/-- A freshly constructed `Grok` with no document loaded and a falsy runtime. -/
def grokEmpty : Grok :=
  { runtime := 0, input_mode := none, input_interval := none,
    mode := none, interval := none, lines := [] }

/-- The document of the spec scenario for `setRuntime`. -/
def grokC5 : Grok :=
  { grokEmpty with
    lines := [pb ("output times"), pb ("1.000e+05"), pb ("time raster table"), pb ("0")] }

/-- A loaded two-line document used as a round-trip witness. -/
def grokC6 : Grok := { grokEmpty with lines := [pb ("rain"), pb ("x")] }

/-- The state produced by `setInputMode(Climatology, Monthly)` from `grokEmpty`. -/
def grokC10 : Grok :=
  { grokEmpty with mode := some (pb ("periodic")), interval := some (pb ("monthly")) }

/-- A `Grok` whose constructor received a truthy runtime of 86400 seconds. -/
def grokRt : Grok := { grokEmpty with runtime := 86400 }

/-- A document in which `time raster table` occurs both before and after the
`rain` anchor. -/
def docTwoSections : List PyStr :=
  [pb ("time raster table"), pb ("a"), pb ("rain"), pb ("x"),
   pb ("time raster table"), pb ("0")]

/-- A document with one `time raster table` slot in each of two forcing sections. -/
def docTwoRoles : List PyStr :=
  [pb ("time raster table"), pb ("old"), pb ("rain"), pb ("time raster table"),
   pb ("r0"), pb ("potential evapotranspiration"), pb ("time raster table"), pb ("p0")]

/-- A log file whose third-from-last line is exactly the sentinel. -/
def logSentinel : PyStr := pb ("x\n---- Normal exit ----\ny\nz\n")

theorem pyToLower_idem (b : Nat) : pyToLower (pyToLower b) = pyToLower b := by
  unfold pyToLower
  by_cases h : 65 ≤ b ∧ b ≤ 90
  · rw [if_pos h, if_neg (by omega)]
  · rw [if_neg h, if_neg h]

theorem pyLower_idem (s : PyStr) : pyLower (pyLower s) = pyLower s := by
  unfold pyLower
  rw [List.map_map]
  exact List.map_congr_left fun b _ => pyToLower_idem b

theorem isPySpace_pyToLower (b : Nat) : isPySpace (pyToLower b) = isPySpace b := by
  unfold pyToLower isPySpace
  split
  · rw [decide_eq_decide]
    omega
  · rfl

theorem pyToLower_eq_ten (b : Nat) : pyToLower b = 10 ↔ b = 10 := by
  unfold pyToLower
  split <;> omega

theorem pyRstrip_cons (b : Nat) (t : PyStr) :
    pyRstrip (b :: t) =
      if pyRstrip t = [] ∧ isPySpace b = true then [] else b :: pyRstrip t := rfl

theorem pyRstrip_eq_nil_iff (s : PyStr) : pyRstrip s = [] ↔ ∀ b ∈ s, isPySpace b = true := by
  induction s with
  | nil => simp [pyRstrip]
  | cons b t ih =>
    rw [pyRstrip_cons]
    by_cases h : pyRstrip t = [] ∧ isPySpace b = true
    · rw [if_pos h]
      simp only [List.mem_cons, true_iff]
      intro x hx
      rcases hx with hx | hx
      · exact hx ▸ h.2
      · exact (ih.mp h.1) x hx
    · rw [if_neg h]
      simp only [List.mem_cons]
      constructor
      · intro hc
        exact absurd hc (List.cons_ne_nil _ _)
      · intro hall
        exact absurd ⟨ih.mpr fun x hx => hall x (Or.inr hx), hall b (Or.inl rfl)⟩ h

theorem pyLstrip_eq_nil_iff (s : PyStr) : pyLstrip s = [] ↔ ∀ b ∈ s, isPySpace b = true := by
  unfold pyLstrip
  exact List.dropWhile_eq_nil_iff

theorem pyLstrip_cons (b : Nat) (t : PyStr) :
    pyLstrip (b :: t) = if isPySpace b = true then pyLstrip t else b :: t := by
  unfold pyLstrip
  rw [List.dropWhile_cons]

theorem pyLstrip_idem (s : PyStr) : pyLstrip (pyLstrip s) = pyLstrip s := by
  induction s with
  | nil => rfl
  | cons b t ih =>
    by_cases h : isPySpace b = true
    · rw [pyLstrip_cons, if_pos h, ih]
    · rw [pyLstrip_cons, if_neg h, pyLstrip_cons, if_neg h]

theorem pyRstrip_idem (s : PyStr) : pyRstrip (pyRstrip s) = pyRstrip s := by
  induction s with
  | nil => rfl
  | cons b t ih =>
    by_cases h : pyRstrip t = [] ∧ isPySpace b = true
    · rw [pyRstrip_cons, if_pos h]
      rfl
    · rw [pyRstrip_cons, if_neg h, pyRstrip_cons, ih, if_neg h]

theorem pyLstrip_pyRstrip_comm (s : PyStr) : pyLstrip (pyRstrip s) = pyRstrip (pyLstrip s) := by
  induction s with
  | nil => rfl
  | cons b t ih =>
    by_cases hb : isPySpace b = true
    · by_cases hr : pyRstrip t = []
      · rw [pyRstrip_cons, if_pos ⟨hr, hb⟩, pyLstrip_cons, if_pos hb]
        have ht : pyLstrip t = [] := (pyLstrip_eq_nil_iff t).mpr ((pyRstrip_eq_nil_iff t).mp hr)
        rw [ht]
        rfl
      · rw [pyRstrip_cons, if_neg fun hc => hr hc.1, pyLstrip_cons, if_pos hb,
            pyLstrip_cons, if_pos hb, ih]
    · rw [pyRstrip_cons, if_neg fun hc => hb hc.2, pyLstrip_cons, if_neg hb,
          pyLstrip_cons, if_neg hb, pyRstrip_cons]
      by_cases hr : pyRstrip t = [] ∧ isPySpace b = true
      · exact absurd hr.2 hb
      · rw [if_neg hr]

theorem pyStrip_idem (s : PyStr) : pyStrip (pyStrip s) = pyStrip s := by
  unfold pyStrip
  rw [← pyLstrip_pyRstrip_comm (pyRstrip s), pyLstrip_idem, pyRstrip_idem]

theorem pyRstrip_append_ten (s : PyStr) : pyRstrip (s ++ [10]) = pyRstrip s := by
  induction s with
  | nil => rfl
  | cons b t ih =>
    rw [List.cons_append, pyRstrip_cons, ih, pyRstrip_cons]

theorem pyStrip_append_ten (s : PyStr) : pyStrip (s ++ [10]) = pyStrip s := by
  unfold pyStrip
  rw [pyRstrip_append_ten]

theorem pyRstrip_lower (s : PyStr) : pyRstrip (pyLower s) = pyLower (pyRstrip s) := by
  induction s with
  | nil => rfl
  | cons b t ih =>
    show pyRstrip (pyToLower b :: pyLower t) = pyLower (pyRstrip (b :: t))
    rw [pyRstrip_cons, pyRstrip_cons, ih, isPySpace_pyToLower]
    by_cases h : pyRstrip t = [] ∧ isPySpace b = true
    · rw [if_pos ⟨by rw [h.1]; rfl, h.2⟩, if_pos h]
      rfl
    · have h2 : ¬ (pyLower (pyRstrip t) = [] ∧ isPySpace b = true) := by
        intro hc
        exact h ⟨List.map_eq_nil_iff.mp hc.1, hc.2⟩
      rw [if_neg h2, if_neg h]
      rfl

theorem pyLstrip_lower (s : PyStr) : pyLstrip (pyLower s) = pyLower (pyLstrip s) := by
  induction s with
  | nil => rfl
  | cons b t ih =>
    show pyLstrip (pyToLower b :: pyLower t) = pyLower (pyLstrip (b :: t))
    rw [pyLstrip_cons, pyLstrip_cons, isPySpace_pyToLower]
    by_cases h : isPySpace b = true
    · rw [if_pos h, if_pos h, ih]
    · rw [if_neg h, if_neg h]
      rfl

theorem pyStrip_lower (s : PyStr) : pyStrip (pyLower s) = pyLower (pyStrip s) := by
  unfold pyStrip
  rw [pyRstrip_lower, pyLstrip_lower]

theorem mem_of_mem_pyRstrip {b : Nat} {s : PyStr} (h : b ∈ pyRstrip s) : b ∈ s := by
  induction s with
  | nil => exact absurd h (List.not_mem_nil b)
  | cons c t ih =>
    rw [pyRstrip_cons] at h
    by_cases hc : pyRstrip t = [] ∧ isPySpace c = true
    · rw [if_pos hc] at h
      exact absurd h (List.not_mem_nil b)
    · rw [if_neg hc] at h
      rcases List.mem_cons.mp h with h | h
      · exact h ▸ List.mem_cons_self c t
      · exact List.mem_cons_of_mem c (ih h)

theorem mem_of_mem_pyLstrip {b : Nat} {s : PyStr} (h : b ∈ pyLstrip s) : b ∈ s :=
  (List.dropWhile_sublist isPySpace).subset h

theorem mem_of_mem_pyStrip {b : Nat} {s : PyStr} (h : b ∈ pyStrip s) : b ∈ s :=
  mem_of_mem_pyRstrip (mem_of_mem_pyLstrip h)

theorem ten_not_mem_pyLower {s : PyStr} (h : (10 : Nat) ∉ s) : (10 : Nat) ∉ pyLower s := by
  intro hc
  rcases List.mem_map.mp hc with ⟨b, hb, hbe⟩
  exact h ((pyToLower_eq_ten b).mp hbe ▸ hb)

theorem pyReadlinesAux_line {x : PyStr} (hx : (10 : Nat) ∉ x) :
    ∀ (rest acc : PyStr),
      pyReadlinesAux (x ++ 10 :: rest) acc = (acc.reverse ++ x ++ [10]) :: pyReadlinesAux rest [] := by
  induction x with
  | nil =>
    intro rest acc
    show pyReadlinesAux (10 :: rest) acc = _
    rw [pyReadlinesAux, if_pos rfl, List.append_nil]
  | cons b t ih =>
    intro rest acc
    have hb : b ≠ 10 := fun hc => hx (hc ▸ List.mem_cons_self b t)
    have ht : (10 : Nat) ∉ t := fun hc => hx (List.mem_cons_of_mem b hc)
    show pyReadlinesAux (b :: (t ++ 10 :: rest)) acc = _
    rw [pyReadlinesAux, if_neg hb, ih ht rest (b :: acc)]
    simp [List.append_assoc]

theorem pyReadlines_writeDoc (ls : List PyStr) (hne : ls ≠ [])
    (hnl : ∀ l ∈ ls, (10 : Nat) ∉ l) :
    pyReadlines (writeDoc ls) = ls.map (· ++ [10]) := by
  induction ls with
  | nil => exact absurd rfl hne
  | cons x rest ih =>
    have hx : (10 : Nat) ∉ x := hnl x (List.mem_cons_self x rest)
    cases rest with
    | nil =>
      show pyReadlinesAux (x ++ [10]) [] = [x ++ [10]]
      have : x ++ [10] = x ++ 10 :: [] := rfl
      rw [this, pyReadlinesAux_line hx [] []]
      rfl
    | cons y r =>
      have hw : writeDoc (x :: y :: r) = x ++ 10 :: writeDoc (y :: r) := by
        show joinNl (x :: y :: r) ++ [10] = x ++ 10 :: (joinNl (y :: r) ++ [10])
        rw [joinNl]
        simp [List.append_assoc]
      show pyReadlines (writeDoc (x :: y :: r)) = _
      rw [hw]
      show pyReadlinesAux (x ++ 10 :: writeDoc (y :: r)) [] = _
      rw [pyReadlinesAux_line hx (writeDoc (y :: r)) []]
      have ihr := ih (List.cons_ne_nil y r) fun l hl => hnl l (List.mem_cons_of_mem x hl)
      show (List.reverse [] ++ x ++ [10]) :: pyReadlines (writeDoc (y :: r)) = _
      rw [ihr]
      simp

theorem normLine_append_ten (l : PyStr) (h : isNormLine l) : normLine (l ++ [10]) = l := by
  unfold normLine
  rw [pyStrip_append_ten, h.1, h.2.1]

/-- Re-reading what `write` wrote recovers exactly the normalised line list. -/
theorem map_normLine_readlines_writeDoc (ls : List PyStr) (hne : ls ≠ [])
    (hn : ∀ l ∈ ls, isNormLine l) :
    (pyReadlines (writeDoc ls)).map normLine = ls := by
  rw [pyReadlines_writeDoc ls hne fun l hl => (hn l hl).2.2, List.map_map]
  have : ∀ l ∈ ls, (normLine ∘ fun x => x ++ [10]) l = id l := by
    intro l hl
    exact normLine_append_ten l (hn l hl)
  rw [List.map_congr_left this, List.map_id]

theorem pyReadlinesAux_shape :
    ∀ (c acc : PyStr), (10 : Nat) ∉ acc →
      ∀ l ∈ pyReadlinesAux c acc, ∃ core, (10 : Nat) ∉ core ∧ (l = core ∨ l = core ++ [10]) := by
  intro c
  induction c with
  | nil =>
    intro acc hacc l hl
    rw [pyReadlinesAux] at hl
    by_cases h : acc = []
    · rw [if_pos h] at hl
      exact absurd hl (List.not_mem_nil l)
    · rw [if_neg h] at hl
      rcases List.mem_singleton.mp hl with rfl
      exact ⟨acc.reverse, fun hc => hacc (List.mem_reverse.mp hc), Or.inl rfl⟩
  | cons b t ih =>
    intro acc hacc l hl
    rw [pyReadlinesAux] at hl
    by_cases hb : b = 10
    · rw [if_pos hb] at hl
      rcases List.mem_cons.mp hl with rfl | hl
      · exact ⟨acc.reverse, fun hc => hacc (List.mem_reverse.mp hc), Or.inr rfl⟩
      · exact ih [] (List.not_mem_nil 10) l hl
    · rw [if_neg hb] at hl
      refine ih (b :: acc) ?_ l hl
      intro hc
      rcases List.mem_cons.mp hc with hc | hc
      · exact hb hc.symm
      · exact hacc hc

theorem normLine_core_append (core : PyStr) : normLine (core ++ [10]) = normLine core := by
  unfold normLine
  rw [pyStrip_append_ten]

theorem isNormLine_normLine_of_no_ten {core : PyStr} (hcore : (10 : Nat) ∉ core) :
    isNormLine (normLine core) := by
  refine ⟨?_, ?_, ?_⟩
  · show pyStrip (pyLower (pyStrip core)) = _
    rw [pyStrip_lower, pyStrip_idem]
    rfl
  · show pyLower (pyLower (pyStrip core)) = _
    rw [pyLower_idem]
    rfl
  · exact ten_not_mem_pyLower fun hc => hcore (mem_of_mem_pyStrip hc)

theorem isNormLine_normLine {l : PyStr}
    (h : ∃ core, (10 : Nat) ∉ core ∧ (l = core ∨ l = core ++ [10])) :
    isNormLine (normLine l) := by
  rcases h with ⟨core, hcore, hc | hc⟩
  · exact hc ▸ isNormLine_normLine_of_no_ten hcore
  · rw [hc, normLine_core_append]
    exact isNormLine_normLine_of_no_ten hcore

theorem isNormLine_of_mem_read {c : PyStr} {l : PyStr}
    (h : l ∈ (pyReadlines c).map normLine) : isNormLine l := by
  rcases List.mem_map.mp h with ⟨l', hl', rfl⟩
  exact isNormLine_normLine (pyReadlinesAux_shape c [] (List.not_mem_nil 10) l' hl')

theorem idxSearch_get {ls : List PyStr} {k : PyStr} {i : Nat}
    (h : idxSearch ls k = some i) : ls.get? i = some k := by
  induction ls generalizing i with
  | nil => exact absurd h (by simp [idxSearch])
  | cons l t ih =>
    rw [idxSearch] at h
    by_cases hl : l = k
    · rw [if_pos hl] at h
      cases h
      simpa using hl
    · rw [if_neg hl] at h
      rcases Option.map_eq_some'.mp h with ⟨j, hj, hji⟩
      subst hji
      simpa using ih hj

theorem idxSearch_lt_length {ls : List PyStr} {k : PyStr} {i : Nat}
    (h : idxSearch ls k = some i) : i < ls.length :=
  List.get?_eq_some.mp (idxSearch_get h) |>.choose

theorem idxSearch_set_of_lt {ls : List PyStr} {k : PyStr} {i j : Nat} {v : PyStr}
    (h : idxSearch ls k = some i) (hij : i < j) : idxSearch (ls.set j v) k = some i := by
  induction ls generalizing i j with
  | nil => exact absurd h (by simp [idxSearch])
  | cons l t ih =>
    rw [idxSearch] at h
    cases j with
    | zero => exact absurd hij (by omega)
    | succ m =>
      rw [List.set_cons_succ]
      by_cases hl : l = k
      · rw [if_pos hl] at h
        rw [idxSearch, if_pos hl]
        exact h
      · rw [idxSearch, if_neg hl]
        rw [if_neg hl] at h
        rcases Option.map_eq_some'.mp h with ⟨i', hi', hii⟩
        subst hii
        rw [ih hi' (by omega)]
        rfl

theorem get?_set_self {l : List PyStr} {n : Nat} {v : PyStr} (h : n < l.length) :
    (l.set n v).get? n = some v := by
  induction l generalizing n with
  | nil => exact absurd h (by simp)
  | cons a t ih =>
    cases n with
    | zero => rfl
    | succ m =>
      rw [List.set_cons_succ]
      exact ih (by simpa using h)

theorem get?_set_ne {l : List PyStr} {n m : Nat} {v : PyStr} (h : n ≠ m) :
    (l.set n v).get? m = l.get? m := by
  induction l generalizing n m with
  | nil => rfl
  | cons a t ih =>
    cases n with
    | zero =>
      cases m with
      | zero => exact absurd rfl h
      | succ m2 => rfl
    | succ n2 =>
      cases m with
      | zero => rfl
      | succ m2 =>
        rw [List.set_cons_succ]
        exact ih fun hc => h (by omega)

theorem set_get?_self {l : List PyStr} {n : Nat} {v : PyStr} (h : l.get? n = some v) :
    l.set n v = l := by
  induction l generalizing n with
  | nil => rfl
  | cons a t ih =>
    cases n with
    | zero =>
      cases h
      rfl
    | succ m =>
      rw [List.set_cons_succ, ih h]

theorem pyIndexFrom_zero (ls : List PyStr) (k : PyStr) :
    pyIndexFrom ls k 0 = idxSearch ls k := by
  unfold pyIndexFrom
  rw [List.drop_zero]
  cases idxSearch ls k <;> simp

theorem setParamCore_spec {lines : List PyStr} {p v : PyStr} {out : List PyStr}
    (h : setParamCore lines p v = some out) :
    ∃ i, idxSearch lines (pyLower p) = some i ∧ i + 1 < lines.length ∧
      out = lines.set (i + 1) v := by
  unfold setParamCore at h
  rcases Option.bind_eq_some.mp h with ⟨i, hi, hif⟩
  by_cases hlen : i + 1 < lines.length
  · rw [if_pos hlen] at hif
    cases hif
    exact ⟨i, hi, hlen, rfl⟩
  · rw [if_neg hlen] at hif
    exact absurd hif (by simp)

theorem setParamDoc_spec {lines : List PyStr} {p v : PyStr} {a : Option PyStr} {s : Nat}
    {out : List PyStr} (h : setParamDoc lines p v a s = some out) :
    ∃ i, idxSearch lines (pyLower p) = some i ∧ i + 1 < lines.length ∧
      out = lines.set (i + 1) v := by
  unfold setParamDoc at h
  rcases Option.bind_eq_some.mp h with ⟨j, _, hcore⟩
  exact setParamCore_spec hcore

theorem setParamCore_self {lines : List PyStr} {p v : PyStr} {out : List PyStr}
    (h : setParamCore lines p v = some out) : setParamCore out p v = some out := by
  rcases setParamCore_spec h with ⟨i, hidx, hlen, rfl⟩
  have hlen2 : i + 1 < (lines.set (i + 1) v).length := by
    rw [List.length_set]
    exact hlen
  unfold setParamCore
  rw [idxSearch_set_of_lt hidx (Nat.lt_succ_self i), Option.some_bind, if_pos hlen2,
      set_get?_self (get?_set_self hlen)]

theorem setParamCore_mem {lines : List PyStr} {p v : PyStr} {out : List PyStr}
    (h : setParamCore lines p v = some out) {l : PyStr} (hl : l ∈ out) :
    l ∈ lines ∨ l = v := by
  rcases setParamCore_spec h with ⟨i, _, _, rfl⟩
  exact List.mem_or_eq_of_mem_set hl

theorem pyRstrip_eq_self_of_no_space {s : PyStr} (h : ∀ b ∈ s, isPySpace b = false) :
    pyRstrip s = s := by
  induction s with
  | nil => rfl
  | cons b t ih =>
    rw [pyRstrip_cons, ih fun x hx => h x (List.mem_cons_of_mem b hx)]
    rw [if_neg fun hc => by rw [h b (List.mem_cons_self b t)] at hc; exact Bool.false_ne_true hc.2]

theorem pyLstrip_eq_self_of_no_space {s : PyStr} (h : ∀ b ∈ s, isPySpace b = false) :
    pyLstrip s = s := by
  cases s with
  | nil => rfl
  | cons b t =>
    rw [pyLstrip_cons,
        if_neg fun hc => by rw [h b (List.mem_cons_self b t)] at hc; exact Bool.false_ne_true hc]

theorem pyStrip_eq_self_of_no_space {s : PyStr} (h : ∀ b ∈ s, isPySpace b = false) :
    pyStrip s = s := by
  unfold pyStrip
  rw [pyRstrip_eq_self_of_no_space h, pyLstrip_eq_self_of_no_space h]

theorem pyLower_eq_self_of_fixed {s : PyStr} (h : ∀ b ∈ s, pyToLower b = b) :
    pyLower s = s := by
  unfold pyLower
  rw [List.map_congr_left h]
  exact List.map_id s

theorem natDigitsAux_lt {fuel n d : Nat} (h : d ∈ natDigitsAux fuel n) : d < 10 := by
  induction fuel generalizing n with
  | zero => exact absurd h (List.not_mem_nil d)
  | succ f ih =>
    rw [natDigitsAux] at h
    by_cases hn : n = 0
    · rw [if_pos hn] at h
      exact absurd h (List.not_mem_nil d)
    · rw [if_neg hn] at h
      rcases List.mem_cons.mp h with rfl | h
      · exact Nat.mod_lt n (by omega)
      · exact ih h

theorem natDigits_lt {n d : Nat} (h : d ∈ natDigits n) : d < 10 := natDigitsAux_lt h

/-- The bytes a rendered mantissa can contain: a decimal digit or the point. -/
theorem mantissaChars_mem {m b : Nat} (h : b ∈ mantissaChars m) :
    (48 ≤ b ∧ b ≤ 57) ∨ b = 46 := by
  have hdigit : ∀ x ∈ (natDigits m).reverse.map (fun d => 48 + d), 48 ≤ x ∧ x ≤ 57 := by
    intro x hx
    rcases List.mem_map.mp hx with ⟨d, hd, rfl⟩
    have := natDigits_lt (List.mem_reverse.mp hd)
    omega
  unfold mantissaChars at h
  rcases hL : (natDigits m).reverse.map (fun d => 48 + d) with _ | ⟨c, cs⟩
  · rw [hL] at h
    simp only [List.mem_cons, List.not_mem_nil, or_false] at h
    rcases h with rfl | rfl | rfl | rfl | rfl
    · exact Or.inl (by omega)
    · exact Or.inr rfl
    · exact Or.inl (by omega)
    · exact Or.inl (by omega)
    · exact Or.inl (by omega)
  · rw [hL] at h
    rcases List.mem_cons.mp h with rfl | h
    · exact Or.inl (hdigit b (by rw [hL]; exact List.mem_cons_self b cs))
    · rcases List.mem_cons.mp h with rfl | h
      · exact Or.inr rfl
      · exact Or.inl (hdigit b (by rw [hL]; exact List.mem_cons_of_mem c h))

theorem expChars_mem {e b : Nat} (h : b ∈ expChars e) : 48 ≤ b ∧ b ≤ 57 := by
  have hdigit : ∀ x ∈ (natDigits e).reverse.map (fun d => 48 + d), 48 ≤ x ∧ x ≤ 57 := by
    intro x hx
    rcases List.mem_map.mp hx with ⟨d, hd, rfl⟩
    have := natDigits_lt (List.mem_reverse.mp hd)
    omega
  unfold expChars at h
  by_cases h0 : e = 0
  · rw [if_pos h0] at h
    simp only [List.mem_cons, List.not_mem_nil, or_false] at h
    rcases h with rfl | rfl <;> omega
  · rw [if_neg h0] at h
    by_cases h10 : e < 10
    · rw [if_pos h10] at h
      rcases List.mem_cons.mp h with rfl | h
      · omega
      · exact hdigit b h
    · rw [if_neg h10] at h
      exact hdigit b h

/-- Every byte of a `.3e`-rendered number is a digit, a point, an `e` or a `+`. -/
theorem sci3_mem {n b : Nat} (h : b ∈ sci3 n) :
    (48 ≤ b ∧ b ≤ 57) ∨ b = 46 ∨ b = 101 ∨ b = 43 := by
  unfold sci3 at h
  by_cases hn : n = 0
  · rw [if_pos hn] at h
    simp only [List.mem_cons, List.not_mem_nil, or_false] at h
    rcases h with rfl | rfl | rfl | rfl | rfl | rfl | rfl | rfl | rfl
    all_goals first
      | exact Or.inl (by omega)
      | exact Or.inr (Or.inl rfl)
      | exact Or.inr (Or.inr (Or.inl rfl))
      | exact Or.inr (Or.inr (Or.inr rfl))
  · rw [if_neg hn] at h
    rcases List.mem_append.mp h with h | h
    · rcases List.mem_append.mp h with h | h
      · rcases mantissaChars_mem h with h | h
        · exact Or.inl h
        · exact Or.inr (Or.inl h)
      · simp only [List.mem_cons, List.not_mem_nil, or_false] at h
        rcases h with rfl | rfl
        · exact Or.inr (Or.inr (Or.inl rfl))
        · exact Or.inr (Or.inr (Or.inr rfl))
    · exact Or.inl (expChars_mem h)

theorem isNormLine_sci3 (n : Nat) : isNormLine (sci3 n) := by
  refine ⟨pyStrip_eq_self_of_no_space ?_, pyLower_eq_self_of_fixed ?_, ?_⟩
  · intro b hb
    have := sci3_mem hb
    unfold isPySpace
    rw [decide_eq_false_iff_not]
    omega
  · intro b hb
    have := sci3_mem hb
    unfold pyToLower
    rw [if_neg (by omega)]
  · intro hb
    have := sci3_mem hb
    omega

theorem setParamDoc_none (lines : List PyStr) (p v : PyStr) (s : Nat) :
    setParamDoc lines p v none s = setParamCore lines p v := rfl

theorem setRuntimeModel_spec {g : Grok} {t : Nat} {g1 : Grok}
    (h : setRuntimeModel g t = some g1) :
    (g.lines = [] ∧ g1 = { g with runtime := t }) ∨
    (g.lines ≠ [] ∧ ∃ ls, setParamCore g.lines (pb ("output times")) (sci3 t) = some ls ∧
      g1 = { g with runtime := t, lines := ls }) := by
  unfold setRuntimeModel at h
  by_cases hl : g.lines = []
  · rw [if_pos hl] at h
    cases h
    exact Or.inl ⟨hl, rfl⟩
  · rw [if_neg hl] at h
    rcases Option.bind_eq_some.mp h with ⟨ls, hls, hg⟩
    cases hg
    exact Or.inr ⟨hl, ls, hls, rfl⟩

theorem readModel_spec {g g1 : Grok} {c : PyStr} (h : readModel g (some c) = some g1) :
    (g.runtime = 0 ∧ g1 = { g with lines := (pyReadlines c).map normLine }) ∨
    (g.runtime ≠ 0 ∧
      setRuntimeModel { g with lines := (pyReadlines c).map normLine } g.runtime = some g1) := by
  unfold readModel at h
  rw [Option.some_bind] at h
  by_cases hrt : g.runtime ≠ 0
  · rw [if_pos hrt] at h
    exact Or.inr ⟨hrt, h⟩
  · rw [if_neg hrt] at h
    cases h
    exact Or.inl ⟨by omega, rfl⟩

/-- Every line held after a successful `read` is stripped, lower-cased and
newline-free, including the value rewritten by the runtime re-application. -/
theorem readModel_lines_norm {g g1 : Grok} {c : PyStr} (h : readModel g (some c) = some g1) :
    ∀ l ∈ g1.lines, isNormLine l := by
  rcases readModel_spec h with ⟨_, rfl⟩ | ⟨_, hrun⟩
  · intro l hl
    exact isNormLine_of_mem_read hl
  · rcases setRuntimeModel_spec hrun with ⟨_, rfl⟩ | ⟨_, ls, hls, rfl⟩
    · intro l hl
      exact isNormLine_of_mem_read hl
    · intro l hl
      rcases setParamCore_mem hls hl with hl2 | rfl
      · exact isNormLine_of_mem_read hl2
      · exact isNormLine_sci3 _

theorem runGrokModel_eq_one (log : PyStr) : runGrokModel log = 1 := by
  unfold runGrokModel readlineFrom
  rw [List.drop_eq_nil_of_le (by omega)]
  rw [if_neg (by decide)]

/-- Claim C1: the source seeks to `seek(2,2)` — two bytes past the end of the log —
so the sentinel comparison reads the empty string and `runGrok` returns 1 for every
log content, including a log whose third-from-last line is exactly the sentinel;
it never marks pre-processing succeeded nor returns 0. -/
theorem runGrok_sentinel_log_still_fails :
    pyStrip ((pyReadlines logSentinel).reverse.getD 2 []) = pb ("---- Normal exit ----") ∧
    runGrokModel logSentinel = 1 ∧
    ∀ log : PyStr, runGrokModel log = 1 :=
  ⟨by decide, runGrokModel_eq_one logSentinel, runGrokModel_eq_one⟩

/-- Claim C2: `setParam` does not use `getParam`'s location logic — the `after`
anchor is resolved but ignored, so on a document where the keyword occurs both
before and after the anchor, the line after the FIRST occurrence in the whole
document is overwritten (index 1 here), not the occurrence after the anchor
(index 5 stays `0`). On the spec scenario document the first occurrence happens to
lie after the anchor, so that single scenario coincidentally produces the
expected result. -/
theorem setParam_ignores_after_anchor :
    setParamDoc docTwoSections (pb ("time raster table")) (pb ("include precip.inc"))
        (some (pb ("rain"))) 0
      = some [pb ("time raster table"), pb ("include precip.inc"), pb ("rain"),
              pb ("x"), pb ("time raster table"), pb ("0")] ∧
    setParamDoc [pb ("rain"), pb ("x"), pb ("time raster table"), pb ("0")]
        (pb ("time raster table")) (pb ("include precip.inc")) (some (pb ("rain"))) 0
      = some [pb ("rain"), pb ("x"), pb ("time raster table"), pb ("include precip.inc")] := by
  constructor <;> decide

/-- Claim C5: on the loaded scenario document, `setRuntime(86400)` stores the
runtime and rewrites exactly line 1 to `8.640e+04`, leaving all other lines
unchanged. -/
theorem setRuntime_scenario :
    setRuntimeModel grokC5 86400
      = some { grokC5 with
               runtime := 86400
               lines := [pb ("output times"), pb ("8.640e+04"),
                         pb ("time raster table"), pb ("0")] } := by
  decide

/-- Claim C8: because `setParam` ignores its `after` anchor, `generateInputLists`
writes each `include <role>.inc` directive after the FIRST `time raster table` line
of the whole document, not the one in the role's own section: with the `rain`
anchor in the second section, index 1 is overwritten and index 5 keeps `0`; with
two roles, both directives land on the same line 1 and the second overwrites the
first, leaving `r0` and `p0` (the slots of both sections) untouched. -/
theorem generateInputLists_wrong_section :
    generateInputListsModel { grokEmpty with lines := docTwoSections }
        [(pb ("precip"), pb ("rain"))]
      = some { grokEmpty with
               lines := [pb ("time raster table"), pb ("include precip.inc"),
                         pb ("rain"), pb ("x"), pb ("time raster table"), pb ("0")] } ∧
    genInputAux docTwoRoles
        [(pb ("precip"), pb ("rain")), (pb ("pet"), pb ("potential evapotranspiration"))]
      = some [pb ("time raster table"), pb ("include pet.inc"), pb ("rain"),
              pb ("time raster table"), pb ("r0"), pb ("potential evapotranspiration"),
              pb ("time raster table"), pb ("p0")] := by
  constructor <;> decide

/-- Claim C3 counterexample: with the constructor-supplied runtime 86400, `read`
succeeds but does not leave `lines` equal to the trimmed lower-cased file content —
the runtime re-application rewrites line 1 from `1.000e+05` to `8.640e+04`. -/
theorem read_applies_runtime_cex :
    readModel grokRt (some (pb ("output times\n1.000e+05\n")))
      = some { grokRt with lines := [pb ("output times"), pb ("8.640e+04")] } ∧
    (pyReadlines (pb ("output times\n1.000e+05\n"))).map normLine
      = [pb ("output times"), pb ("1.000e+05")] ∧
    pb ("8.640e+04") ≠ pb ("1.000e+05") := by
  refine ⟨by decide, by decide, by decide⟩

/-- Claim C3 amended: `read` fails for a path that is not a regular file; on success
with a falsy runtime, `lines` is exactly the file content with each line trimmed and
lower-cased; with a truthy runtime, `setRuntime` is additionally applied to the
loaded document; in every successful case each resulting line is trimmed and
lower-cased. -/
theorem read_amended :
    (∀ g : Grok, readModel g none = none) ∧
    (∀ (g : Grok) (c : PyStr), g.runtime = 0 →
      readModel g (some c) = some { g with lines := (pyReadlines c).map normLine }) ∧
    (∀ (g g1 : Grok) (c : PyStr), readModel g (some c) = some g1 →
      ∀ l ∈ g1.lines, pyStrip l = l ∧ pyLower l = l) := by
  refine ⟨fun g => rfl, fun g c h => ?_, fun g g1 c h l hl => ?_⟩
  · unfold readModel
    rw [Option.some_bind, if_neg (by omega)]
  · have hn := readModel_lines_norm h l hl
    exact ⟨hn.1, hn.2.1⟩

theorem read_amended_witness :
    readModel grokEmpty (some (pb (" Output Times \nX\n")))
      = some { grokEmpty with
               lines := (pyReadlines (pb (" Output Times \nX\n"))).map normLine } :=
  read_amended.2.1 grokEmpty (pb (" Output Times \nX\n")) rfl

/-- Claim C7: after a successful `setParam(k, encode x)` with default anchor
arguments, `getParam(k)` returns exactly the encoded value — no case folding is
applied to the stored value — so any decode that is a left inverse of encode
recovers `x`. -/
theorem set_get_roundtrip {α : Type} (decode : PyStr → α) (encode : α → PyStr)
    (hinv : ∀ y, decode (encode y) = y) (lines : List PyStr) (k : PyStr) (x : α)
    (out : List PyStr) (h : setParamDoc lines k (encode x) none 0 = some out) :
    getParamDoc out k none 0 = some (encode x) ∧
    (getParamDoc out k none 0).map decode = some x := by
  have hcore : setParamCore lines k (encode x) = some out := h
  rcases setParamCore_spec hcore with ⟨i, hidx, hlen, rfl⟩
  have hidx2 : idxSearch (lines.set (i + 1) (encode x)) (pyLower k) = some i :=
    idxSearch_set_of_lt hidx (Nat.lt_succ_self i)
  have hget : getParamDoc (lines.set (i + 1) (encode x)) k none 0 = some (encode x) := by
    show ((pyIndexFrom (lines.set (i + 1) (encode x)) (pyLower k) 0).bind fun j =>
      (lines.set (i + 1) (encode x)).get? (j + 1)) = some (encode x)
    rw [pyIndexFrom_zero, hidx2, Option.some_bind, get?_set_self hlen]
  refine ⟨hget, ?_⟩
  rw [hget, Option.map_some', hinv]

theorem set_get_roundtrip_witness :
    getParamDoc [pb ("key"), pb ("MiXeD Case")] (pb ("KEY")) none 0
      = some (pb ("MiXeD Case")) ∧
    (getParamDoc [pb ("key"), pb ("MiXeD Case")] (pb ("KEY")) none 0).map id
      = some (pb ("MiXeD Case")) :=
  set_get_roundtrip id id (fun y => rfl) [pb ("key"), pb ("old")] (pb ("KEY"))
    (pb ("MiXeD Case")) [pb ("key"), pb ("MiXeD Case")] (by decide)

theorem set_frame (l : List PyStr) (m : Nat) (v : PyStr) :
    (l.set m v).length = l.length ∧
    ∀ j k, (l.set m v).get? j ≠ l.get? j → (l.set m v).get? k ≠ l.get? k → j = k := by
  refine ⟨List.length_set l m v, fun j k hj hk => ?_⟩
  by_cases hjm : j = m
  · by_cases hkm : k = m
    · rw [hjm, hkm]
    · exact absurd (get?_set_ne fun hc => hkm hc.symm) hk
  · exact absurd (get?_set_ne fun hc => hjm hc.symm) hj

theorem replaceParamDoc_spec {lines : List PyStr} {o n : PyStr} {a : Option PyStr}
    {s : Nat} {out : List PyStr} (h : replaceParamDoc lines o n a s = some out) :
    ∃ i, out = lines.set i n := by
  unfold replaceParamDoc at h
  rcases Option.bind_eq_some.mp h with ⟨s0, _, h2⟩
  rcases Option.bind_eq_some.mp h2 with ⟨i, _, h3⟩
  cases h3
  exact ⟨i, rfl⟩

/-- Claim C9: each in-place edit that succeeds — `setParam`, `replaceParam`, and
`setRuntime` on the loaded document — preserves the number of lines and differs
from the input at no more than one index. -/
theorem edit_ops_frame :
    (∀ (lines : List PyStr) (p v : PyStr) (a : Option PyStr) (s : Nat)
        (out : List PyStr), setParamDoc lines p v a s = some out →
      out.length = lines.length ∧
      ∀ j k, out.get? j ≠ lines.get? j → out.get? k ≠ lines.get? k → j = k) ∧
    (∀ (lines : List PyStr) (o n : PyStr) (a : Option PyStr) (s : Nat)
        (out : List PyStr), replaceParamDoc lines o n a s = some out →
      out.length = lines.length ∧
      ∀ j k, out.get? j ≠ lines.get? j → out.get? k ≠ lines.get? k → j = k) ∧
    (∀ (g : Grok) (t : Nat) (g1 : Grok), setRuntimeModel g t = some g1 →
      g1.lines.length = g.lines.length ∧
      ∀ j k, g1.lines.get? j ≠ g.lines.get? j → g1.lines.get? k ≠ g.lines.get? k →
        j = k) := by
  refine ⟨fun lines p v a s out h => ?_, fun lines o n a s out h => ?_,
    fun g t g1 h => ?_⟩
  · rcases setParamDoc_spec h with ⟨i, _, _, rfl⟩
    exact set_frame lines (i + 1) v
  · rcases replaceParamDoc_spec h with ⟨i, rfl⟩
    exact set_frame lines i n
  · rcases setRuntimeModel_spec h with ⟨_, rfl⟩ | ⟨_, ls, hls, rfl⟩
    · exact ⟨rfl, fun j k hj _ => absurd rfl hj⟩
    · rcases setParamCore_spec hls with ⟨i, _, _, rfl⟩
      exact set_frame g.lines (i + 1) (sci3 t)

theorem edit_ops_frame_witness :
    ([pb ("key"), pb ("y")] : List PyStr).length
      = ([pb ("key"), pb ("x")] : List PyStr).length :=
  (edit_ops_frame.1 [pb ("key"), pb ("x")] (pb ("key")) (pb ("y")) none 0
    [pb ("key"), pb ("y")] (by decide)).1

/-- Claim C10: a successful `setInputMode` stores the classified mode and interval
into the `mode` and `interval` attributes and leaves the constructor-assigned
`input_mode` and `input_interval` fields (and the rest of the state) unchanged. -/
theorem setInputMode_frame (g : Grok) (m i : PyStr) (g1 : Grok)
    (h : setInputModeModel g m i = some g1) :
    g1.input_mode = g.input_mode ∧ g1.input_interval = g.input_interval ∧
    g1.mode = some (classifyMode m) ∧ g1.interval = classifyInterval i ∧
    g1.lines = g.lines ∧ g1.runtime = g.runtime := by
  unfold setInputModeModel at h
  rcases Option.bind_eq_some.mp h with ⟨iv, hiv, hg⟩
  cases hg
  exact ⟨rfl, rfl, rfl, by rw [hiv], rfl, rfl⟩

theorem setInputMode_frame_witness :
    grokC10.input_mode = grokEmpty.input_mode ∧
    grokC10.input_interval = grokEmpty.input_interval ∧
    grokC10.mode = some (classifyMode (pb ("Climatology"))) ∧
    grokC10.interval = classifyInterval (pb ("Monthly")) ∧
    grokC10.lines = grokEmpty.lines ∧ grokC10.runtime = grokEmpty.runtime :=
  setInputMode_frame grokEmpty (pb ("Climatology")) (pb ("Monthly")) grokC10 (by decide)

theorem classifyModeL_cases (ml : PyStr) :
    classifyModeL ml = pb ("steady-state") ∨ classifyModeL ml = pb ("periodic") ∨
    classifyModeL ml = pb ("transient") ∨ classifyModeL ml = ml := by
  unfold classifyModeL
  by_cases c1 : ml = pb ("mean") ∨ ml = pb ("steady") ∨ ml = pb ("steady-state") ∨
      lastN 5 ml = pb ("-mean")
  · rw [if_pos c1]
    exact Or.inl rfl
  · rw [if_neg c1]
    by_cases c2 : ml.take 4 = pb ("clim") ∨ ml.take 4 = pb ("peri") ∨
        ml.take 4 = pb ("climatology") ∨ ml.take 4 = pb ("periodic")
    · rw [if_pos c2]
      exact Or.inr (Or.inl rfl)
    · rw [if_neg c2]
      by_cases c3 : ml = pb ("time-series") ∨ ml = pb ("timeseries") ∨
          ml = pb ("trans") ∨ ml = pb ("transient")
      · rw [if_pos c3]
        exact Or.inr (Or.inr (Or.inl rfl))
      · rw [if_neg c3]
        exact Or.inr (Or.inr (Or.inr rfl))

theorem classifyMode_prefix_periodic (s r : PyStr)
    (h : pyLower s = pb ("clim") ∨ pyLower s = pb ("peri"))
    (hm : lastN 5 (pyLower (s ++ r)) ≠ pb ("-mean")) :
    classifyMode (s ++ r) = pb ("periodic") := by
  have hmap : pyLower (s ++ r) = pyLower s ++ pyLower r := List.map_append pyToLower s r
  have hlen : (pyLower s).length = 4 := by
    rcases h with h | h <;> rw [h] <;> decide
  have htake : (pyLower (s ++ r)).take 4 = pyLower s := by
    rw [hmap, ← hlen, List.take_left]
  have c1 : ¬ (pyLower (s ++ r) = pb ("mean") ∨ pyLower (s ++ r) = pb ("steady") ∨
      pyLower (s ++ r) = pb ("steady-state") ∨ lastN 5 (pyLower (s ++ r)) = pb ("-mean")) := by
    intro hc
    rcases hc with hc | hc | hc | hc
    · rw [hc] at htake
      rcases h with h | h <;> rw [h] at htake <;> exact absurd htake (by decide)
    · rw [hc] at htake
      rcases h with h | h <;> rw [h] at htake <;> exact absurd htake (by decide)
    · rw [hc] at htake
      rcases h with h | h <;> rw [h] at htake <;> exact absurd htake (by decide)
    · exact hm hc
  have c2 : (pyLower (s ++ r)).take 4 = pb ("clim") ∨
      (pyLower (s ++ r)).take 4 = pb ("peri") ∨
      (pyLower (s ++ r)).take 4 = pb ("climatology") ∨
      (pyLower (s ++ r)).take 4 = pb ("periodic") := by
    rcases h with h | h
    · exact Or.inl (htake.trans h)
    · exact Or.inr (Or.inl (htake.trans h))
  unfold classifyMode classifyModeL
  rw [if_neg c1, if_pos c2]

theorem classifyInterval_month (s r : PyStr) (h : pyLower s = pb ("month")) :
    classifyInterval (s ++ r) = some (pb ("monthly")) := by
  have hmap : pyLower (s ++ r) = pyLower s ++ pyLower r := List.map_append pyToLower s r
  have hlen : (pyLower s).length = 5 := by rw [h]; decide
  have htake : (pyLower (s ++ r)).take 5 = pyLower s := by
    rw [hmap, ← hlen, List.take_left]
  unfold classifyInterval
  rw [if_pos (htake.trans h)]

theorem classifyInterval_day (s r : PyStr) (h : pyLower s = pb ("day")) :
    classifyInterval (s ++ r) = some (pb ("daily")) := by
  have hmap : pyLower (s ++ r) = pyLower s ++ pyLower r := List.map_append pyToLower s r
  have hlen : (pyLower s).length = 3 := by rw [h]; decide
  have htake : (pyLower (s ++ r)).take 3 = pyLower s := by
    rw [hmap, ← hlen, List.take_left]
  have c1 : ¬ (pyLower (s ++ r)).take 5 = pb ("month") := by
    intro hc
    have h3 : (pyLower (s ++ r)).take 3 = (pb ("month")).take 3 := by
      rw [← hc, List.take_take]
      norm_num
    rw [htake, h] at h3
    exact absurd h3 (by decide)
  unfold classifyInterval
  rw [if_neg c1, if_pos (htake.trans h)]

/-- Claim C4 counterexample: `setInputMode` with interval `daily` raises
(`daily[:3] = dai`, not `day`), although the claim says `daily` maps to daily;
an undocumented mode string is accepted silently and stored as-is instead of
failing; and a string starting with `clim` but ending in `-mean` classifies as
steady-state, not periodic. -/
theorem interval_classification_cex :
    setInputModeModel grokEmpty (pb ("clim")) (pb ("daily")) = none ∧
    setInputModeModel grokEmpty (pb ("strange-mode")) (pb ("day"))
      = some { grokEmpty with mode := some (pb ("strange-mode")), interval := some (pb ("daily")) } ∧
    classifyMode (pb ("clim-mean")) = pb ("steady-state") := by
  refine ⟨by decide, by decide, by decide⟩

/-- Claim C4 amended: strings starting with `clim` or `peri` map to periodic unless
their last five characters are `-mean` (the steady-state check runs first); strings
starting with `month` map to monthly and strings starting with `day` map to daily,
case-insensitively; `daily` itself does not start with `day` and fails with
UnsupportedInterval, as does every other undocumented interval string; mode
classification is idempotent, but undocumented mode strings are accepted silently
and stored lower-cased — only the interval argument is ever rejected. -/
theorem interval_classification_amended :
    (∀ s r : PyStr, (pyLower s = pb ("clim") ∨ pyLower s = pb ("peri")) →
      lastN 5 (pyLower (s ++ r)) ≠ pb ("-mean") →
      classifyMode (s ++ r) = pb ("periodic")) ∧
    (∀ s r : PyStr, pyLower s = pb ("month") →
      classifyInterval (s ++ r) = some (pb ("monthly"))) ∧
    (∀ s r : PyStr, pyLower s = pb ("day") →
      classifyInterval (s ++ r) = some (pb ("daily"))) ∧
    (∀ i : PyStr, (pyLower i).take 5 ≠ pb ("month") → (pyLower i).take 3 ≠ pb ("day") →
      classifyInterval i = none) ∧
    classifyInterval (pb ("daily")) = none ∧
    classifyInterval (pb ("monthly")) = some (pb ("monthly")) ∧
    (∀ m : PyStr, classifyMode (classifyMode m) = classifyMode m) ∧
    (∀ (g : Grok) (m i : PyStr), setInputModeModel g m i = none ↔ classifyInterval i = none) := by
  refine ⟨classifyMode_prefix_periodic, classifyInterval_month, classifyInterval_day,
    fun i h5 h3 => ?_, by decide, by decide, fun m => ?_, fun g m i => ?_⟩
  · unfold classifyInterval
    rw [if_neg h5, if_neg h3]
  · show classifyModeL (pyLower (classifyMode m)) = classifyMode m
    rcases classifyModeL_cases (pyLower m) with h | h | h | h
    · show classifyModeL (pyLower (classifyModeL (pyLower m))) = classifyModeL (pyLower m)
      rw [h]
      decide
    · show classifyModeL (pyLower (classifyModeL (pyLower m))) = classifyModeL (pyLower m)
      rw [h]
      decide
    · show classifyModeL (pyLower (classifyModeL (pyLower m))) = classifyModeL (pyLower m)
      rw [h]
      decide
    · show classifyModeL (pyLower (classifyModeL (pyLower m))) = classifyModeL (pyLower m)
      rw [h, pyLower_idem]
      exact h
  · unfold setInputModeModel
    cases hci : classifyInterval i <;> simp [hci]

theorem interval_classification_amended_witness :
    classifyInterval (pb ("Month") ++ pb ("ly")) = some (pb ("monthly")) :=
  interval_classification_amended.2.1 (pb ("Month")) (pb ("ly")) (by decide)

/-- Claim C6 counterexample: the empty file is read successfully into `lines = []`,
but `write` emits a lone newline, which re-reads as a single empty line — the
round trip is not the identity on the empty document. -/
theorem roundtrip_empty_cex :
    readModel grokEmpty (some ([] : PyStr)) = some grokEmpty ∧
    writeDoc grokEmpty.lines = [10] ∧
    readModel grokEmpty (some (writeDoc grokEmpty.lines))
      = some { grokEmpty with lines := [[]] } ∧
    ([[]] : List PyStr) ≠ grokEmpty.lines := by
  refine ⟨by decide, by decide, by decide, by decide⟩

/-- Claim C6 amended: for every file successfully read into a NON-empty `lines`
sequence, writing the document unchanged and re-reading the written content
restores the identical state, including a truthy runtime's re-application. -/
theorem read_write_roundtrip (g g1 : Grok) (c : PyStr)
    (h : readModel g (some c) = some g1) (hne : g1.lines ≠ []) :
    readModel g1 (some (writeDoc g1.lines)) = some g1 := by
  have hnorm : ∀ l ∈ g1.lines, isNormLine l := readModel_lines_norm h
  have hstab : (pyReadlines (writeDoc g1.lines)).map normLine = g1.lines :=
    map_normLine_readlines_writeDoc g1.lines hne hnorm
  unfold readModel
  rw [Option.some_bind]
  by_cases hrt : g1.runtime ≠ 0
  · rw [if_pos hrt]
    rw [hstab]
    show setRuntimeModel g1 g1.runtime = some g1
    rcases readModel_spec h with ⟨hrt0, rfl⟩ | ⟨hrtne, hrun⟩
    · exact absurd hrt0 hrt
    · rcases setRuntimeModel_spec hrun with ⟨hbnil, rfl⟩ | ⟨hbne, ls, hls, rfl⟩
      · exact absurd hbnil hne
      · unfold setRuntimeModel
        rw [if_neg hne]
        have hself := setParamCore_self hls
        rw [setParamDoc_none]
        show (setParamCore ls (pb ("output times")) (sci3 _)).bind _ = _
        rw [hself, Option.some_bind]
  · rw [if_neg hrt]
    rw [hstab]

theorem read_write_roundtrip_witness :
    readModel grokC6 (some (writeDoc grokC6.lines)) = some grokC6 :=
  read_write_roundtrip grokEmpty grokC6 (pb ("rain\nx\n")) (by decide) (by decide)

end HGSGrok
